import Mathlib

/-!
Verification of the WebView2 process-discovery / priority-elevation subsystem
and the GPU performance-counter sampler of the PACDeluxe desktop shell
(src-tauri/src/performance.rs), as a shallow embedding in Lean.

Machine pids are modelled as `Nat`; a Toolhelp snapshot is a list of
`(th32ProcessID, th32ParentProcessID, szExeFile)` rows; the outcome of the
fallible native elevation call (`OpenProcess` + `SetPriorityClass`) is an
explicit boolean oracle supplied per sighting.
-/

namespace PACDeluxe

/-- One row of a Toolhelp process snapshot (`PROCESSENTRY32`):
`th32ProcessID`, `th32ParentProcessID` and the executable name `szExeFile`. -/
structure ProcEntry where
  pid : Nat
  ppid : Nat
  name : String
deriving DecidableEq, Repr

/-- The `Process32First`/`Process32Next` scan inside the ancestry walkers of
`performance.rs`: find the first snapshot row whose `th32ProcessID` equals
`p` and return its parent pid, `none` when no row matches. -/
def lookupParent (table : List ProcEntry) (p : Nat) : Option Nat :=
  (table.find? (fun e => e.pid == p)).map (·.ppid)

/-- The set of process ids that occur as `th32ProcessID` in a snapshot. -/
def tablePids (table : List ProcEntry) : Finset Nat :=
  (table.map (·.pid)).toFinset

theorem mem_tablePids_of_lookupParent {table : List ProcEntry} {p q : Nat}
    (h : lookupParent table p = some q) : p ∈ tablePids table := by
  unfold lookupParent at h
  obtain ⟨e, he, -⟩ := Option.map_eq_some'.mp h
  have hmem : e ∈ table := List.mem_of_find?_eq_some he
  have hp : e.pid = p := by
    have hpe := List.find?_some he
    simpa using hpe
  exact List.mem_toFinset.mpr (List.mem_map.mpr ⟨e, hmem, hp⟩)

/-- The shared parent-chain walk of `is_descendant_of` and
`is_descendant_of_pid` (performance.rs:844-896 and 1007-1060): starting from
`current`, stop with `false` when the pid repeats (cycle guard) or is zero,
look up the parent in the snapshot, answer `true` when the parent is the
sought ancestor, `false` when the pid has no row, and otherwise continue from
the parent.  Termination: each round inserts a fresh pid drawn from the
snapshot into `visited`, so the pids of the snapshot not yet visited form a
strictly decreasing measure. -/
def walkAncestry (table : List ProcEntry) (anc : Nat) (visited : Finset Nat)
    (current : Nat) : Bool :=
  if hv : current ∈ visited ∨ current = 0 then
    false
  else
    match hp : lookupParent table current with
    | none => false
    | some parent =>
      if parent = anc then true
      else walkAncestry table anc (insert current visited) parent
termination_by (tablePids table \ visited).card
decreasing_by
  have hcur : current ∈ tablePids table := mem_tablePids_of_lookupParent hp
  have hnv : current ∉ visited := fun hmem => hv (Or.inl hmem)
  have hset : tablePids table \ insert current visited
      = (tablePids table \ visited).erase current := by
    ext x
    simp only [Finset.mem_sdiff, Finset.mem_insert, Finset.mem_erase]
    tauto
  rw [hset]
  exact Finset.card_erase_lt_of_mem (Finset.mem_sdiff.mpr ⟨hcur, hnv⟩)

/-- `is_descendant_of` (performance.rs:1007-1060): walk the parent chain of
`pid` in a fresh snapshot, answering whether `anc` occurs among its
ancestors, with an empty visited set at the start. -/
def is_descendant_of (table : List ProcEntry) (pid anc : Nat) : Bool :=
  walkAncestry table anc ∅ pid

/-- `is_descendant_of_pid` (performance.rs:844-896): identical parent-chain
walk used by the WMI event branch (the Rust source duplicates the loop
verbatim, taking its own snapshot). -/
def is_descendant_of_pid (table : List ProcEntry) (pid anc : Nat) : Bool :=
  walkAncestry table anc ∅ pid

/-- Boolean test that `pat` starts the character list `l`. -/
def leadsWith : List Char → List Char → Bool
  | [], _ => true
  | _ :: _, [] => false
  | p :: ps, c :: cs => p == c && leadsWith ps cs

/-- Boolean substring test on character lists: `pat` occurs contiguously. -/
def containsSeq (pat : List Char) : List Char → Bool
  | [] => leadsWith pat []
  | l@(_ :: t) => leadsWith pat l || containsSeq pat t

/-- The name filter of both watcher modes
(`process_name.to_lowercase().contains("msedgewebview2")`,
performance.rs:755-756 and 959). -/
def nameMatchesWebview (name : String) : Bool :=
  containsSeq "msedgewebview2".data (name.data.map Char.toLower)

/-- `ElevationTelemetry` (performance.rs:78-88). -/
structure ElevationTelemetry where
  processes_elevated : Nat
  mode : String
  is_active : Bool
  wmi_available : Bool
deriving DecidableEq, Repr

/-- `get_elevation_telemetry` (performance.rs:91-101) as a function of the
three process-wide atomics `PROCESSES_ELEVATED`, `WMI_WATCHER_ACTIVE` and
`WEBVIEW_OPTIMIZER_RUNNING`. -/
def get_elevation_telemetry (processesElevated : Nat)
    (wmiActive optimizerRunning : Bool) : ElevationTelemetry :=
  { processes_elevated := processesElevated
    mode := if wmiActive then "wmi" else "polling"
    is_active := optimizerRunning
    wmi_available := wmiActive }

/-- Outcome of the WMI initialization handshake of
`start_wmi_process_watcher` (performance.rs:701-803).  The spawned thread
signals success or failure over a one-shot channel which the caller reads
with `recv_timeout(5s)`:
`ok` — initialization succeeds and the success message arrives within the
bound; `fail` — COM/WMI/subscription initialization fails and the failure
message arrives within the bound (the thread exits); `timeout lateSuccess`
— no message arrives within the bound, and the still-running thread's
initialization afterwards either fails (the thread exits) or succeeds
(`lateSuccess`), in which case the thread stores `WMI_WATCHER_ACTIVE =
true` and enters its event loop even though the caller has already fallen
back to polling. -/
inductive WmiInitOutcome where
  | ok : WmiInitOutcome
  | fail : WmiInitOutcome
  | timeout (lateSuccess : Bool) : WmiInitOutcome
deriving DecidableEq, Repr

/-- The boolean returned by `start_wmi_process_watcher`
(performance.rs:796-802): the received handshake message, or `false` when
`recv_timeout` expires. -/
def handshakeResult : WmiInitOutcome → Bool
  | .ok => true
  | .fail => false
  | .timeout _ => false

/-- The process-wide state of the optimizer subsystem:
`WEBVIEW_OPTIMIZER_RUNNING` (performance.rs:69), `WMI_WATCHER_ACTIVE`
(performance.rs:72), and counts of the watcher loops that have been entered
— `wmiLoops` counts WMI event loops (performance.rs:752-788), `pollLoops`
counts polling loops (performance.rs:900-916). -/
structure OptimizerGlobals where
  running : Bool
  wmiWatcherActive : Bool
  wmiLoops : Nat
  pollLoops : Nat
deriving DecidableEq, Repr

/-- Globals before `apply_system_optimizations` runs: both flags unset, no
watcher loop entered. -/
def initGlobals : OptimizerGlobals :=
  { running := false, wmiWatcherActive := false, wmiLoops := 0, pollLoops := 0 }

/-- Total number of watcher loops that have been entered. -/
def watcherLoops (g : OptimizerGlobals) : Nat :=
  g.wmiLoops + g.pollLoops

/-- `start_webview_optimizer` (performance.rs:682-697) together with the
eventual effect of the WMI thread it spawns:
`WEBVIEW_OPTIMIZER_RUNNING.swap(true)` makes every call after the first a
no-op.  An unguarded call with handshake outcome `ok` enters the WMI event
loop and sets `WMI_WATCHER_ACTIVE`; with outcome `fail` it starts the
polling loop (the WMI thread has exited); with outcome `timeout late` it
starts the polling loop, and the never-cancelled WMI thread additionally
sets `WMI_WATCHER_ACTIVE` and enters its event loop when its
initialization succeeds after the timeout (`late = true`) — two watcher
loops from one call. -/
def start_webview_optimizer (o : WmiInitOutcome) (g : OptimizerGlobals) :
    OptimizerGlobals :=
  if g.running then g
  else
    match o with
    | .ok =>
      { running := true
        wmiWatcherActive := true
        wmiLoops := g.wmiLoops + 1
        pollLoops := g.pollLoops }
    | .fail =>
      { running := true
        wmiWatcherActive := g.wmiWatcherActive
        wmiLoops := g.wmiLoops
        pollLoops := g.pollLoops + 1 }
    | .timeout late =>
      { running := true
        wmiWatcherActive := if late then true else g.wmiWatcherActive
        wmiLoops := if late then g.wmiLoops + 1 else g.wmiLoops
        pollLoops := g.pollLoops + 1 }

/-- End of the WMI event loop on `iter.next() = None`
(performance.rs:783-792): the thread breaks out of the loop and stores
`false` into `WMI_WATCHER_ACTIVE`; `WEBVIEW_OPTIMIZER_RUNNING` is not
touched. -/
def wmi_stream_terminated (g : OptimizerGlobals) : OptimizerGlobals :=
  { g with wmiWatcherActive := false }

/-- A `Win32_ProcessStartTrace` WMI event (performance.rs:574-580). -/
structure WmiEvent where
  process_id : Nat
  process_name : String
  parent_process_id : Nat
deriving DecidableEq, Repr

/-- One sighting processed by the WMI event loop: the event, the process
table consulted by `is_descendant_of_pid` at that moment, and the outcome
the fallible native elevation (`OpenProcess` + `SetPriorityClass` inside
`elevate_single_process`) would have at that moment. -/
structure Sighting where
  event : WmiEvent
  table : List ProcEntry
  elevOk : Bool

/-- State of the WMI watcher: the `optimized_pids` hash set (modelled as a
duplicate-free list in insertion order), a log of the pids for which
`elevate_single_process` was invoked, a log of the pids whose elevation
succeeded, and the `PROCESSES_ELEVATED` counter. -/
structure WmiState where
  tracked : List Nat
  elevCalls : List Nat
  elevated : List Nat
  counter : Nat

/-- WMI watcher state at subscription time: fresh empty hash set, counter 0. -/
def wmiInit : WmiState :=
  { tracked := [], elevCalls := [], elevated := [], counter := 0 }

/-- One iteration of the WMI event loop (performance.rs:752-779): a matching
event whose process is a child or descendant of our pid and is not yet in
`optimized_pids` triggers `elevate_single_process`; on success the counter
is bumped (performance.rs:823) and the pid inserted into the set. -/
def wmiStep (ourPid : Nat) (s : WmiState) (sig : Sighting) : WmiState :=
  if nameMatchesWebview sig.event.process_name then
    if sig.event.parent_process_id == ourPid
        || is_descendant_of_pid sig.table sig.event.process_id ourPid then
      if sig.event.process_id ∈ s.tracked then s
      else
        if sig.elevOk then
          { tracked := s.tracked ++ [sig.event.process_id]
            elevCalls := s.elevCalls ++ [sig.event.process_id]
            elevated := s.elevated ++ [sig.event.process_id]
            counter := s.counter + 1 }
        else
          { s with elevCalls := s.elevCalls ++ [sig.event.process_id] }
    else s
  else s

/-- The WMI event loop over a finite stream of sightings. -/
def wmiRun (ourPid : Nat) (s : WmiState) (sigs : List Sighting) : WmiState :=
  sigs.foldl (wmiStep ourPid) s

/-- `HashSet::insert` on the duplicate-free-list model of a pid set. -/
def hsInsert (l : List Nat) (p : Nat) : List Nat :=
  if l.contains p then l else l ++ [p]

/-- The candidate filter of one `elevate_webview2_processes` scan
(performance.rs:945-989): snapshot rows whose name matches the WebView2
pattern, whose parent is our pid or whose ancestry reaches it, and whose pid
is not already in `already_optimized`; for each such row the elevation
action (`OpenProcess` + `SetPriorityClass`) is invoked. -/
def scanCandidates (ourPid : Nat) (table : List ProcEntry)
    (already : List Nat) : List Nat :=
  (table.filter (fun e =>
    nameMatchesWebview e.name
      && (e.ppid == ourPid || is_descendant_of table e.pid ourPid)
      && !(already.contains e.pid))).map (·.pid)

/-- State of the polling watcher: the `optimized_pids` set local to
`start_polling_optimizer`, a log of pids for which the elevation action was
invoked, a log of the pids whose elevation succeeded, and the
`PROCESSES_ELEVATED` counter (which `elevate_webview2_processes` never
touches). -/
structure PollState where
  tracked : List Nat
  elevCalls : List Nat
  elevated : List Nat
  counter : Nat

/-- Polling watcher state right after the 2-second grace sleep. -/
def pollInit : PollState :=
  { tracked := [], elevCalls := [], elevated := [], counter := 0 }

/-- External data of one polling iteration: the snapshot taken by
`CreateToolhelp32Snapshot` and the per-pid outcome the native elevation
would have during this scan. -/
structure PollTick where
  table : List ProcEntry
  elevOk : Nat → Bool

/-- One iteration of the polling loop (performance.rs:906-915): run
`elevate_webview2_processes` against the current tracked set and insert the
successfully elevated pids.  No code path removes a pid and no code path
increments `PROCESSES_ELEVATED`. -/
def pollTickStep (ourPid : Nat) (st : PollState) (t : PollTick) : PollState :=
  let cands := scanCandidates ourPid t.table st.tracked
  let succs := cands.filter t.elevOk
  { tracked := succs.foldl hsInsert st.tracked
    elevCalls := st.elevCalls ++ cands
    elevated := st.elevated ++ succs
    counter := st.counter }

/-- The polling loop over a finite schedule of iterations. -/
def pollRun (ourPid : Nat) (st : PollState) (ticks : List PollTick) :
    PollState :=
  ticks.foldl (pollTickStep ourPid) st

/-- The polling loop observed for `ticks.length` intervals, together with
the number of iterations it executes.  `stopRequested` stands for the stop
flag claimed by the specification: the loop body in the source
(performance.rs:906-915) is an unconditional `loop` that reads no such
flag, so the argument cannot influence the run. -/
def pollLoop (ourPid : Nat) (stopRequested : Bool) (st : PollState) :
    List PollTick → PollState × Nat
  | [] => (st, 0)
  | t :: ts =>
    let out := pollLoop ourPid stopRequested (pollTickStep ourPid st t) ts
    (out.1, out.2 + 1)

/-- The initial grace sleep of the polling watcher,
`Duration::from_secs(2)` (performance.rs:902). -/
def POLL_GRACE_SECS : Nat := 2

/-- The polling interval, `Duration::from_secs(5)` (performance.rs:914). -/
def POLL_INTERVAL_SECS : Nat := 5

/-- The WMI handshake timeout, `Duration::from_secs(5)`
(performance.rs:796). -/
def WMI_HANDSHAKE_TIMEOUT_SECS : Nat := 5

/-- The `clamp` of Rust's `f64`: `self.max(lo).min(hi)`, on exact
rationals. -/
def rustClamp (x lo hi : ℚ) : ℚ :=
  min (max x lo) hi

/-- The aggregation loop of `GpuMonitor::get_usage`
(performance.rs:328-341): starting from `0.0`, replace the accumulator by
any strictly larger engine value, then clamp to `[0, 100]`.  Engine values
are the `doubleValue` entries of the formatted-counter array, modelled as
exact rationals. -/
def gpuAggregate (values : List ℚ) : ℚ :=
  rustClamp (values.foldl (fun acc v => if v > acc then v else acc) 0) 0 100

/-! ### Helper lemmas -/

theorem walkAncestry_step (table : List ProcEntry) (anc : Nat)
    (visited : Finset Nat) (current : Nat) :
    walkAncestry table anc visited current =
      if current ∈ visited ∨ current = 0 then false
      else
        match lookupParent table current with
        | none => false
        | some parent =>
          if parent = anc then true
          else walkAncestry table anc (insert current visited) parent := by
  by_cases hc : current ∈ visited ∨ current = 0
  · rw [walkAncestry]
    simp [hc]
  · rw [walkAncestry]
    cases hp : lookupParent table current <;> simp [hc, hp]

theorem lookupParent_cons (e : ProcEntry) (rest : List ProcEntry) (p : Nat) :
    lookupParent (e :: rest) p =
      if e.pid = p then some e.ppid else lookupParent rest p := by
  by_cases h : e.pid = p
  · simp [lookupParent, List.find?_cons_of_pos, h]
  · simp [lookupParent, List.find?_cons_of_neg, h]

theorem mem_hsInsert_left {p : Nat} {l : List Nat} (q : Nat) (h : p ∈ l) :
    p ∈ hsInsert l q := by
  unfold hsInsert
  split
  · exact h
  · exact List.mem_append_left _ h

theorem mem_hsInsert_self (l : List Nat) (p : Nat) : p ∈ hsInsert l p := by
  unfold hsInsert
  split
  next h => simpa using h
  next h => exact List.mem_append_right _ (List.mem_singleton.mpr rfl)

theorem hsInsert_nodup {l : List Nat} (q : Nat) (h : l.Nodup) :
    (hsInsert l q).Nodup := by
  unfold hsInsert
  split
  next hc => exact h
  next hc =>
    have hq : q ∉ l := by simpa using hc
    refine List.nodup_append.mpr ⟨h, List.nodup_singleton q, ?_⟩
    intro a ha hb
    have haq : a = q := by simpa using hb
    exact hq (haq ▸ ha)

theorem mem_foldl_hsInsert_left {p : Nat} :
    ∀ (xs l : List Nat), p ∈ l → p ∈ xs.foldl hsInsert l
  | [], _, h => h
  | q :: xs, l, h => mem_foldl_hsInsert_left xs (hsInsert l q) (mem_hsInsert_left q h)

theorem mem_foldl_hsInsert_of_mem {p : Nat} :
    ∀ (xs l : List Nat), p ∈ xs → p ∈ xs.foldl hsInsert l
  | q :: xs, l, h => by
    rcases List.mem_cons.mp h with hq | hxs
    · subst hq
      exact mem_foldl_hsInsert_left xs (hsInsert l p) (mem_hsInsert_self l p)
    · exact mem_foldl_hsInsert_of_mem xs (hsInsert l q) hxs

theorem foldl_hsInsert_nodup :
    ∀ (xs l : List Nat), l.Nodup → (xs.foldl hsInsert l).Nodup
  | [], _, h => h
  | q :: xs, l, h => foldl_hsInsert_nodup xs (hsInsert l q) (hsInsert_nodup q h)

theorem not_mem_already_of_mem_scanCandidates {ourPid p : Nat}
    {table : List ProcEntry} {already : List Nat}
    (h : p ∈ scanCandidates ourPid table already) : p ∉ already := by
  unfold scanCandidates at h
  obtain ⟨e, he, hpe⟩ := List.mem_map.mp h
  obtain ⟨-, hcond⟩ := List.mem_filter.mp he
  intro hmem
  subst hpe
  simp only [Bool.and_eq_true, Bool.not_eq_true'] at hcond
  have : e.pid ∈ already := hmem
  simp [this] at hcond

theorem mem_scanCandidates_of_conditions {ourPid : Nat} {table : List ProcEntry}
    {already : List Nat} {e : ProcEntry}
    (he : e ∈ table) (hname : nameMatchesWebview e.name = true)
    (hanc : (e.ppid == ourPid || is_descendant_of table e.pid ourPid) = true)
    (hnew : e.pid ∉ already) :
    e.pid ∈ scanCandidates ourPid table already := by
  unfold scanCandidates
  refine List.mem_map.mpr ⟨e, List.mem_filter.mpr ⟨he, ?_⟩, rfl⟩
  simp [hname, hanc, hnew]

theorem scanCandidates_nodup {ourPid : Nat} {table : List ProcEntry}
    (already : List Nat) (h : (table.map ProcEntry.pid).Nodup) :
    (scanCandidates ourPid table already).Nodup := by
  unfold scanCandidates
  exact ((List.filter_sublist table).map ProcEntry.pid).nodup h

theorem wmiStep_inv (ourPid : Nat) (s : WmiState) (sig : Sighting)
    (h1 : s.tracked.Nodup) (h2 : s.elevated = s.tracked) :
    (wmiStep ourPid s sig).tracked.Nodup
      ∧ (wmiStep ourPid s sig).elevated = (wmiStep ourPid s sig).tracked := by
  unfold wmiStep
  split
  next =>
    split
    next =>
      split
      next => exact ⟨h1, h2⟩
      next hmem =>
        split
        next =>
          refine ⟨List.nodup_append.mpr ⟨h1, List.nodup_singleton _, ?_⟩, by simp [h2]⟩
          intro x hx hx'
          have hxq := List.mem_singleton.mp hx'
          subst hxq
          exact hmem hx
        next => exact ⟨h1, h2⟩
    next => exact ⟨h1, h2⟩
  next => exact ⟨h1, h2⟩

theorem wmiRun_inv (ourPid : Nat) :
    ∀ (sigs : List Sighting) (s : WmiState), s.tracked.Nodup → s.elevated = s.tracked →
      (wmiRun ourPid s sigs).tracked.Nodup
        ∧ (wmiRun ourPid s sigs).elevated = (wmiRun ourPid s sigs).tracked
  | [], s, h1, h2 => ⟨h1, h2⟩
  | sig :: rest, s, h1, h2 => by
    have hstep := wmiStep_inv ourPid s sig h1 h2
    exact wmiRun_inv ourPid rest (wmiStep ourPid s sig) hstep.1 hstep.2

theorem pollTickStep_inv (ourPid : Nat) (st : PollState) (t : PollTick)
    (htable : (t.table.map ProcEntry.pid).Nodup)
    (h1 : st.tracked.Nodup) (h2 : st.elevated.Nodup)
    (h3 : ∀ p ∈ st.elevated, p ∈ st.tracked) :
    (pollTickStep ourPid st t).tracked.Nodup
      ∧ (pollTickStep ourPid st t).elevated.Nodup
      ∧ ∀ p ∈ (pollTickStep ourPid st t).elevated,
          p ∈ (pollTickStep ourPid st t).tracked := by
  have hcands : (scanCandidates ourPid t.table st.tracked).Nodup :=
    scanCandidates_nodup st.tracked htable
  have hsuccs : ((scanCandidates ourPid t.table st.tracked).filter t.elevOk).Nodup :=
    hcands.filter _
  have hsub : ∀ p, p ∈ (scanCandidates ourPid t.table st.tracked).filter t.elevOk →
      p ∈ scanCandidates ourPid t.table st.tracked :=
    fun p hp => List.mem_of_mem_filter hp
  refine ⟨foldl_hsInsert_nodup _ _ h1, ?_, ?_⟩
  · refine List.nodup_append.mpr ⟨h2, hsuccs, ?_⟩
    intro x hx hx'
    exact not_mem_already_of_mem_scanCandidates (hsub x hx') (h3 x hx)
  · intro p hp
    rcases List.mem_append.mp hp with hold | hnew
    · exact mem_foldl_hsInsert_left _ _ (h3 p hold)
    · exact mem_foldl_hsInsert_of_mem _ _ hnew

theorem pollRun_inv (ourPid : Nat) :
    ∀ (ticks : List PollTick) (st : PollState),
      (∀ t ∈ ticks, (t.table.map ProcEntry.pid).Nodup) →
      st.tracked.Nodup → st.elevated.Nodup → (∀ p ∈ st.elevated, p ∈ st.tracked) →
        (pollRun ourPid st ticks).tracked.Nodup
          ∧ (pollRun ourPid st ticks).elevated.Nodup
          ∧ ∀ p ∈ (pollRun ourPid st ticks).elevated,
              p ∈ (pollRun ourPid st ticks).tracked
  | [], st, _, h1, h2, h3 => ⟨h1, h2, h3⟩
  | t :: rest, st, htab, h1, h2, h3 => by
    have hstep := pollTickStep_inv ourPid st t (htab t (List.mem_cons_self t rest)) h1 h2 h3
    exact pollRun_inv ourPid rest (pollTickStep ourPid st t)
      (fun u hu => htab u (List.mem_cons_of_mem t hu)) hstep.1 hstep.2.1 hstep.2.2

/-! ### Claim theorems -/

/-- Claim C1, counterexample to the clause that the elevation action is
invoked at most once per pid: when the first elevation attempt fails (the
native call returns false), the pid is not inserted into the tracking set,
so a second sighting of the same pid invokes `elevate_single_process`
again — two invocations for one pid. -/
theorem C1_counterexample :
    (wmiRun 1 wmiInit
      [ { event := { process_id := 7, process_name := "msedgewebview2.exe",
                     parent_process_id := 1 }, table := [], elevOk := false }
      , { event := { process_id := 7, process_name := "msedgewebview2.exe",
                     parent_process_id := 1 }, table := [], elevOk := true }
      ]).elevCalls.count 7 = 2 := by decide

/-- Claim C1 (amended): in either watcher mode a pid is successfully
elevated at most once (a failed elevation attempt leaves the pid untracked
and the action may be re-invoked on a later sighting); the tracking set
never contains duplicate entries; a pid already in the set is skipped
entirely (never re-elevated); a pid absent from the set is eligible — a
matching sighting of it invokes the elevation action. -/
theorem C1_no_double_elevation :
    (∀ (ourPid : Nat) (sigs : List Sighting),
        (wmiRun ourPid wmiInit sigs).tracked.Nodup
      ∧ (wmiRun ourPid wmiInit sigs).elevated = (wmiRun ourPid wmiInit sigs).tracked
      ∧ ∀ p, ((wmiRun ourPid wmiInit sigs).elevated.count p ≤ 1))
  ∧ (∀ (ourPid : Nat) (s : WmiState) (sig : Sighting),
        sig.event.process_id ∈ s.tracked → wmiStep ourPid s sig = s)
  ∧ (∀ (ourPid : Nat) (s : WmiState) (sig : Sighting),
        nameMatchesWebview sig.event.process_name = true →
        (sig.event.parent_process_id == ourPid
          || is_descendant_of_pid sig.table sig.event.process_id ourPid) = true →
        sig.event.process_id ∉ s.tracked →
        (wmiStep ourPid s sig).elevCalls = s.elevCalls ++ [sig.event.process_id])
  ∧ (∀ (ourPid : Nat) (ticks : List PollTick),
        (∀ t ∈ ticks, (t.table.map ProcEntry.pid).Nodup) →
          (pollRun ourPid pollInit ticks).tracked.Nodup
        ∧ (pollRun ourPid pollInit ticks).elevated.Nodup
        ∧ ∀ p, ((pollRun ourPid pollInit ticks).elevated.count p ≤ 1))
  ∧ (∀ (ourPid : Nat) (st : PollState) (t : PollTick) (p : Nat),
        p ∈ st.tracked → p ∉ scanCandidates ourPid t.table st.tracked) := by
  refine ⟨?_, ?_, ?_, ?_, ?_⟩
  · intro ourPid sigs
    have h := wmiRun_inv ourPid sigs wmiInit (by simp [wmiInit]) rfl
    refine ⟨h.1, h.2, fun p => ?_⟩
    have : (wmiRun ourPid wmiInit sigs).elevated.Nodup := h.2 ▸ h.1
    exact List.nodup_iff_count_le_one.mp this p
  · intro ourPid s sig hmem
    unfold wmiStep
    split_ifs <;> rfl
  · intro ourPid s sig hname hanc hmem
    unfold wmiStep
    rw [if_pos hname, if_pos hanc, if_neg hmem]
    split
    next => rfl
    next => rfl
  · intro ourPid ticks htab
    have h := pollRun_inv ourPid ticks pollInit htab (by simp [pollInit])
      (by simp [pollInit]) (by simp [pollInit])
    exact ⟨h.1, h.2.1, fun p => List.nodup_iff_count_le_one.mp h.2.1 p⟩
  · intro ourPid st t p hmem hin
    exact not_mem_already_of_mem_scanCandidates hin hmem

/-- Witness for C1: a pid already in the tracking set is skipped (the state
is unchanged), and an untracked matching sighting invokes the elevation
action exactly once. -/
theorem C1_witness :
    wmiStep 1 { tracked := [7], elevCalls := [7], elevated := [7], counter := 1 }
      { event := { process_id := 7, process_name := "msedgewebview2.exe",
                   parent_process_id := 1 }, table := [], elevOk := true }
      = { tracked := [7], elevCalls := [7], elevated := [7], counter := 1 }
  ∧ (wmiStep 1 { tracked := [], elevCalls := [], elevated := [], counter := 0 }
      { event := { process_id := 9, process_name := "msedgewebview2.exe",
                   parent_process_id := 1 }, table := [], elevOk := true }).elevCalls
      = [] ++ [9] :=
  ⟨C1_no_double_elevation.2.1 1
      { tracked := [7], elevCalls := [7], elevated := [7], counter := 1 }
      { event := { process_id := 7, process_name := "msedgewebview2.exe",
                   parent_process_id := 1 }, table := [], elevOk := true }
      (by decide),
   C1_no_double_elevation.2.2.1 1
      { tracked := [], elevCalls := [], elevated := [], counter := 0 }
      { event := { process_id := 9, process_name := "msedgewebview2.exe",
                   parent_process_id := 1 }, table := [], elevOk := true }
      (by decide) (by decide) (by decide)⟩

/-- Claim C2, counterexample to the clause that the ancestry check returns
false whenever the walked parent is zero: in the source the `parent ==
ancestor_pid` comparison precedes the next round's zero test, so querying
ancestor pid 0 against a table in which pid 5 has parent 0 answers true. -/
theorem C2_counterexample :
    is_descendant_of [{ pid := 5, ppid := 0, name := "x" }] 5 0 = true := by
  have h : lookupParent [({ pid := 5, ppid := 0, name := "x" } : ProcEntry)] 5
      = some 0 := rfl
  rw [is_descendant_of, walkAncestry_step, h]
  simp

/-- Claim C2 (amended): the ancestry check is a total function (it
terminates on every process table, cyclic ones included); on the two-pid
cycle a↔b with an ancestor reachable through neither it returns false; it
returns false when the walked pid has no row in the table; and when the
walked parent is zero it returns false provided zero is not itself the
queried ancestor (the parent-equals-ancestor test precedes the zero
test). -/
theorem C2_cycle_guard :
    (∀ table pid anc,
       is_descendant_of table pid anc = true ∨ is_descendant_of table pid anc = false)
  ∧ (∀ (a b c : Nat) (na nb : String), a ≠ 0 → b ≠ 0 → a ≠ b → c ≠ a → c ≠ b →
       is_descendant_of
         [{ pid := a, ppid := b, name := na }, { pid := b, ppid := a, name := nb }]
         a c = false)
  ∧ (∀ table pid anc, lookupParent table pid = none →
       is_descendant_of table pid anc = false)
  ∧ (∀ table pid anc, anc ≠ 0 → lookupParent table pid = some 0 →
       is_descendant_of table pid anc = false) := by
  refine ⟨?_, ?_, ?_, ?_⟩
  · intro table pid anc
    cases h : is_descendant_of table pid anc
    · exact Or.inr rfl
    · exact Or.inl rfl
  · intro a b c na nb ha hb hab hca hcb
    have l1 : lookupParent
        [({ pid := a, ppid := b, name := na } : ProcEntry),
         { pid := b, ppid := a, name := nb }] a = some b := by
      simp [lookupParent_cons]
    have l2 : lookupParent
        [({ pid := a, ppid := b, name := na } : ProcEntry),
         { pid := b, ppid := a, name := nb }] b = some a := by
      simp [lookupParent_cons, hab]
    rw [is_descendant_of, walkAncestry_step]
    simp only [Finset.not_mem_empty, false_or, ha, if_false, l1]
    rw [if_neg (Ne.symm hcb), walkAncestry_step]
    simp only [Finset.mem_insert, Finset.not_mem_empty, or_false, l2]
    rw [if_neg (by push_neg; exact ⟨Ne.symm hab, hb⟩), if_neg (Ne.symm hca),
      walkAncestry_step]
    simp [Finset.mem_insert]
  · intro table pid anc h
    rw [is_descendant_of, walkAncestry_step, h]
    simp
  · intro table pid anc hanc h
    rw [is_descendant_of, walkAncestry_step, h]
    by_cases hp : pid ∈ (∅ : Finset Nat) ∨ pid = 0
    · rw [if_pos hp]
    · rw [if_neg hp]
      show (if (0 : Nat) = anc then true
        else walkAncestry table anc (insert pid ∅) 0) = false
      rw [if_neg (Ne.symm hanc), walkAncestry_step]
      simp

/-- Witness for C2: the concrete cycle 2↔3 queried for ancestor 7 answers
false, and a pid whose walked parent is zero answers false for the nonzero
ancestor 9. -/
theorem C2_witness :
    is_descendant_of
      [{ pid := 2, ppid := 3, name := "a" }, { pid := 3, ppid := 2, name := "b" }]
      2 7 = false
  ∧ is_descendant_of [{ pid := 5, ppid := 0, name := "x" }] 5 9 = false :=
  ⟨C2_cycle_guard.2.1 2 3 7 "a" "b" (by decide) (by decide) (by decide)
      (by decide) (by decide),
   C2_cycle_guard.2.2.2 [{ pid := 5, ppid := 0, name := "x" }] 5 9 (by decide) rfl⟩

theorem foldl_if_gt_eq_foldl_max (l : List ℚ) (a : ℚ) :
    l.foldl (fun acc v => if v > acc then v else acc) a = l.foldl max a := by
  induction l generalizing a with
  | nil => rfl
  | cons c t ih =>
    have hstep : (if c > a then c else a) = max a c := by
      rcases le_or_lt c a with h | h
      · rw [if_neg (not_lt.mpr h), max_eq_left h]
      · rw [if_pos h, max_eq_right h.le]
    simp only [List.foldl_cons, hstep, ih]

theorem foldl_max_shift (l : List ℚ) :
    ∀ (a b : ℚ), l.foldl max (max a b) = max a (l.foldl max b) := by
  induction l with
  | nil => intro a b; rfl
  | cons c t ih =>
    intro a b
    simp only [List.foldl_cons, max_assoc, ih]

/-- Claim C3: across a multi-engine result set the sampler reports the
maximum engine utilization, clamped into `[0, 100]`; on the specification's
synthetic example `[12.0, 87.5, 3.0]` it reports `87.5`, and a raw value
above 100 is clamped to 100; the reported value always lies in
`[0, 100]`. -/
theorem C3_gpu_max_clamped :
    (∀ (x : ℚ) (xs : List ℚ),
        gpuAggregate (x :: xs) = min 100 (max 0 (xs.foldl max x)))
  ∧ gpuAggregate [12, 87.5, 3] = 87.5
  ∧ gpuAggregate [12, 105, 3] = 100
  ∧ (∀ l : List ℚ, 0 ≤ gpuAggregate l ∧ gpuAggregate l ≤ 100) := by
  refine ⟨?_, by norm_num [gpuAggregate, rustClamp], by norm_num [gpuAggregate, rustClamp], ?_⟩
  · intro x xs
    unfold gpuAggregate rustClamp
    rw [foldl_if_gt_eq_foldl_max]
    simp only [List.foldl_cons]
    have h0 : (0 : ℚ) ⊔ x = max 0 x := rfl
    rw [show xs.foldl max (max 0 x) = max 0 (xs.foldl max x) from foldl_max_shift xs 0 x]
    rw [max_eq_left (le_max_left 0 (xs.foldl max x)), min_comm]
  · intro l
    unfold gpuAggregate rustClamp
    constructor
    · exact le_min (le_max_right _ 0) (by norm_num)
    · exact min_le_right _ _

/-- Claim C4, counterexample to the clause that exactly one watcher thread
exists regardless of N: a single start call whose WMI handshake times out
and whose spawned thread succeeds only afterwards enters two watcher loops
— the polling fallback started by the caller and the event loop entered by
the never-cancelled WMI thread. -/
theorem C4_counterexample :
    watcherLoops (start_webview_optimizer (WmiInitOutcome.timeout true) initGlobals)
      = 2 := by decide

/-- Claim C4 (amended): starting the optimizer is guard-idempotent — a call
on an already-running state is a no-op, every call leaves the running flag
set, and any sequence of further calls (whatever their handshake outcomes)
leaves the state of the first call unchanged, so repeated calls never start
an additional watcher.  A first call whose handshake does not end in a
timeout followed by late WMI success enters exactly one watcher loop; in
the timed-out late-success case that single call enters two (the polling
fallback and the WMI event loop). -/
theorem C4_start_idempotent_watchers :
    (∀ (o : WmiInitOutcome) (g : OptimizerGlobals),
        g.running = true → start_webview_optimizer o g = g)
  ∧ (∀ (o : WmiInitOutcome) (g : OptimizerGlobals),
        (start_webview_optimizer o g).running = true)
  ∧ (∀ (o : WmiInitOutcome) (os : List WmiInitOutcome),
        os.foldl (fun g oc => start_webview_optimizer oc g)
            (start_webview_optimizer o initGlobals)
          = start_webview_optimizer o initGlobals)
  ∧ (∀ (o : WmiInitOutcome), o ≠ WmiInitOutcome.timeout true →
        watcherLoops (start_webview_optimizer o initGlobals) = 1)
  ∧ ((start_webview_optimizer (WmiInitOutcome.timeout true) initGlobals).wmiLoops = 1
      ∧ (start_webview_optimizer (WmiInitOutcome.timeout true) initGlobals).pollLoops = 1) := by
  have hfix : ∀ (o : WmiInitOutcome) (g : OptimizerGlobals),
      g.running = true → start_webview_optimizer o g = g := by
    intro o g hg
    unfold start_webview_optimizer
    rw [if_pos hg]
  have hrun : ∀ (o : WmiInitOutcome) (g : OptimizerGlobals),
      (start_webview_optimizer o g).running = true := by
    intro o g
    unfold start_webview_optimizer
    by_cases hg : g.running = true
    · rw [if_pos hg]
      exact hg
    · rw [if_neg hg]
      cases o <;> rfl
  refine ⟨hfix, hrun, ?_, ?_, by decide⟩
  · intro o os
    induction os with
    | nil => rfl
    | cons oc rest ih =>
      rw [List.foldl_cons, hfix oc _ (hrun o initGlobals)]
      exact ih
  · intro o ho
    cases o with
    | ok => rfl
    | fail => rfl
    | timeout late =>
      cases late with
      | true => exact absurd rfl ho
      | false => rfl

/-- Witness for C4: a second start call on the state left by a first
(polling-mode) call changes nothing, and a first call whose handshake
reports failure within the bound enters exactly one watcher loop. -/
theorem C4_witness :
    start_webview_optimizer WmiInitOutcome.ok
        { running := true, wmiWatcherActive := false, wmiLoops := 0, pollLoops := 1 }
      = { running := true, wmiWatcherActive := false, wmiLoops := 0, pollLoops := 1 }
  ∧ watcherLoops (start_webview_optimizer WmiInitOutcome.fail initGlobals) = 1 :=
  ⟨C4_start_idempotent_watchers.1 WmiInitOutcome.ok
      { running := true, wmiWatcherActive := false, wmiLoops := 0, pollLoops := 1 } rfl,
   C4_start_idempotent_watchers.2.2.2.1 WmiInitOutcome.fail (by decide)⟩

/-- Claim C5: whenever the WMI handshake reports failure (initialization
error signalled within the bound, or the 5-second timeout), the start call
enters the polling loop; after an in-bound failure the WMI-active flag is
down and telemetry reports mode "polling"; the grace period is 2 seconds,
the polling interval 5 seconds and the handshake bound 5 seconds; and
within a single polling iteration every matching snapshot row whose pid is
untracked, whose ancestry reaches the host pid and whose elevation
succeeds is elevated and inserted into the tracking set. -/
theorem C5_fallback_to_polling :
    POLL_GRACE_SECS = 2 ∧ POLL_INTERVAL_SECS = 5 ∧ WMI_HANDSHAKE_TIMEOUT_SECS = 5
  ∧ (∀ o : WmiInitOutcome, handshakeResult o = false →
        (start_webview_optimizer o initGlobals).running = true
      ∧ (start_webview_optimizer o initGlobals).pollLoops = 1)
  ∧ (start_webview_optimizer WmiInitOutcome.fail initGlobals).wmiWatcherActive = false
  ∧ (start_webview_optimizer (WmiInitOutcome.timeout false) initGlobals).wmiWatcherActive
      = false
  ∧ (∀ c : Nat, (get_elevation_telemetry c
        (start_webview_optimizer WmiInitOutcome.fail initGlobals).wmiWatcherActive
        (start_webview_optimizer WmiInitOutcome.fail initGlobals).running).mode = "polling")
  ∧ (∀ (ourPid : Nat) (st : PollState) (t : PollTick) (e : ProcEntry),
        e ∈ t.table → nameMatchesWebview e.name = true →
        (e.ppid == ourPid || is_descendant_of t.table e.pid ourPid) = true →
        e.pid ∉ st.tracked → t.elevOk e.pid = true →
          e.pid ∈ (pollTickStep ourPid st t).tracked
        ∧ e.pid ∈ (pollTickStep ourPid st t).elevated) := by
  have hfall : ∀ o : WmiInitOutcome, handshakeResult o = false →
      (start_webview_optimizer o initGlobals).running = true
    ∧ (start_webview_optimizer o initGlobals).pollLoops = 1 := by
    intro o ho
    cases o with
    | ok => exact absurd ho (by decide)
    | fail => exact ⟨rfl, rfl⟩
    | timeout late => exact ⟨rfl, rfl⟩
  refine ⟨rfl, rfl, rfl, hfall, rfl, rfl, fun c => rfl, ?_⟩
  intro ourPid st t e he hname hanc hnew helev
  have hcand : e.pid ∈ scanCandidates ourPid t.table st.tracked :=
    mem_scanCandidates_of_conditions he hname hanc hnew
  have hsucc : e.pid ∈ (scanCandidates ourPid t.table st.tracked).filter t.elevOk :=
    List.mem_filter.mpr ⟨hcand, helev⟩
  exact ⟨mem_foldl_hsInsert_of_mem _ _ hsucc, List.mem_append_right _ hsucc⟩

/-- Witness for C5: a concrete polling iteration elevates and tracks the
matching untracked child process 7 of host pid 1. -/
theorem C5_witness :
    7 ∈ (pollTickStep 1 pollInit
      { table := [{ pid := 7, ppid := 1, name := "msedgewebview2.exe" }],
        elevOk := fun _ => true }).tracked
  ∧ 7 ∈ (pollTickStep 1 pollInit
      { table := [{ pid := 7, ppid := 1, name := "msedgewebview2.exe" }],
        elevOk := fun _ => true }).elevated :=
  C5_fallback_to_polling.2.2.2.2.2.2.2 1 pollInit
    { table := [{ pid := 7, ppid := 1, name := "msedgewebview2.exe" }],
      elevOk := fun _ => true }
    { pid := 7, ppid := 1, name := "msedgewebview2.exe" }
    (by decide) (by decide) (by decide) (by decide) rfl

/-- Claim C6, counterexample to the garbage-collection clause: the polling
loop of the source contains no sweep — a tracked pid whose process no
longer exists (dead pid 42, openable by no scan) is still tracked after 13
polling cycles, where the claimed sweep every ~12 cycles would have removed
it. -/
theorem C6_counterexample :
    (pollRun 1 { tracked := [42], elevCalls := [], elevated := [], counter := 0 }
      (List.replicate 13 { table := [], elevOk := fun _ => false })).tracked
    = [42] := by decide

/-- Claim C6 (amended): no garbage-collection sweep exists — the tracking
set of the polling watcher is insert-only: a tracked pid remains tracked
after every further iteration and after any run, whether or not its
process can still be opened. -/
theorem C6_insert_only :
    (∀ (ourPid : Nat) (st : PollState) (t : PollTick) (p : Nat),
        p ∈ st.tracked → p ∈ (pollTickStep ourPid st t).tracked)
  ∧ (∀ (ourPid : Nat) (ticks : List PollTick) (st : PollState) (p : Nat),
        p ∈ st.tracked → p ∈ (pollRun ourPid st ticks).tracked) := by
  have hstep : ∀ (ourPid : Nat) (st : PollState) (t : PollTick) (p : Nat),
      p ∈ st.tracked → p ∈ (pollTickStep ourPid st t).tracked :=
    fun ourPid st t p hp => mem_foldl_hsInsert_left _ _ hp
  refine ⟨hstep, ?_⟩
  intro ourPid ticks
  induction ticks with
  | nil => exact fun st p hp => hp
  | cons t rest ih =>
    intro st p hp
    exact ih (pollTickStep ourPid st t) p (hstep ourPid st t p hp)

/-- Witness for C6: pid 42, tracked before two polling iterations in which
its process is gone, is still tracked afterwards. -/
theorem C6_witness :
    42 ∈ (pollRun 9 { tracked := [42], elevCalls := [], elevated := [], counter := 0 }
      (List.replicate 2 { table := [], elevOk := fun _ => false })).tracked :=
  C6_insert_only.2 9 (List.replicate 2 { table := [], elevOk := fun _ => false })
    { tracked := [42], elevCalls := [], elevated := [], counter := 0 }
    42 (by decide)

/-- Claim C7, counterexample to the stop-flag clause: with a stop request
asserted from before the first iteration, the polling loop still executes
all three scheduled iterations instead of stopping within one — the source
loop body contains no stop-flag check. -/
theorem C7_counterexample :
    (pollLoop 1 true pollInit
      (List.replicate 3 { table := [], elevOk := fun _ => false })).2 = 3 := by
  decide

/-- Claim C7 (amended): the source has no stop flag and exposes no stop
operation — the polling loop's behavior is identical whether or not a stop
is requested, and it executes every scheduled iteration (its state
evolution is exactly the unconditional fold of iterations). -/
theorem C7_no_stop_flag :
    (∀ (ourPid : Nat) (st : PollState) (ticks : List PollTick),
        pollLoop ourPid true st ticks = pollLoop ourPid false st ticks)
  ∧ (∀ (ourPid : Nat) (stop : Bool) (st : PollState) (ticks : List PollTick),
        (pollLoop ourPid stop st ticks).2 = ticks.length)
  ∧ (∀ (ourPid : Nat) (stop : Bool) (st : PollState) (ticks : List PollTick),
        (pollLoop ourPid stop st ticks).1 = pollRun ourPid st ticks) := by
  have hlen : ∀ (ourPid : Nat) (stop : Bool) (ticks : List PollTick) (st : PollState),
      (pollLoop ourPid stop st ticks).2 = ticks.length := by
    intro ourPid stop ticks
    induction ticks with
    | nil => intro st; rfl
    | cons t rest ih => intro st; simp [pollLoop, ih]
  have hrun : ∀ (ourPid : Nat) (stop : Bool) (ticks : List PollTick) (st : PollState),
      (pollLoop ourPid stop st ticks).1 = pollRun ourPid st ticks := by
    intro ourPid stop ticks
    induction ticks with
    | nil => intro st; rfl
    | cons t rest ih => intro st; simp [pollLoop, pollRun, ih]
  have heq : ∀ (ourPid : Nat) (ticks : List PollTick) (st : PollState),
      pollLoop ourPid true st ticks = pollLoop ourPid false st ticks := by
    intro ourPid ticks
    induction ticks with
    | nil => intro st; rfl
    | cons t rest ih => intro st; simp [pollLoop, ih]
  exact ⟨fun ourPid st ticks => heq ourPid ticks st,
    fun ourPid stop st ticks => hlen ourPid stop ticks st,
    fun ourPid stop st ticks => hrun ourPid stop ticks st⟩

/-- Claim C8, counterexample to the polling half: a successful polling-mode
elevation (pid 7, a matching child of host pid 1, elevation succeeds)
inserts the pid into the tracking set but leaves the `PROCESSES_ELEVATED`
counter at 0 — `elevate_webview2_processes` never increments it. -/
theorem C8_counterexample :
    (pollTickStep 1 pollInit
      { table := [{ pid := 7, ppid := 1, name := "msedgewebview2.exe" }],
        elevOk := fun _ => true }).tracked = [7]
  ∧ (pollTickStep 1 pollInit
      { table := [{ pid := 7, ppid := 1, name := "msedgewebview2.exe" }],
        elevOk := fun _ => true }).counter = 0 := by decide

/-- Claim C8 (amended): a successful elevation of a matching untracked
process increments the telemetry counter by one and inserts the pid into
the tracking set in event-driven mode only; the polling path never changes
the counter; the telemetry getter merely reads the counter value. -/
theorem C8_counter_event_mode_only :
    (∀ (ourPid : Nat) (s : WmiState) (sig : Sighting),
        nameMatchesWebview sig.event.process_name = true →
        (sig.event.parent_process_id == ourPid
          || is_descendant_of_pid sig.table sig.event.process_id ourPid) = true →
        sig.event.process_id ∉ s.tracked → sig.elevOk = true →
          (wmiStep ourPid s sig).counter = s.counter + 1
        ∧ (wmiStep ourPid s sig).tracked = s.tracked ++ [sig.event.process_id])
  ∧ (∀ (ourPid : Nat) (st : PollState) (t : PollTick),
        (pollTickStep ourPid st t).counter = st.counter)
  ∧ (∀ (c : Nat) (w r : Bool), (get_elevation_telemetry c w r).processes_elevated = c) := by
  refine ⟨?_, fun ourPid st t => rfl, fun c w r => rfl⟩
  intro ourPid s sig hname hanc hmem helev
  unfold wmiStep
  rw [if_pos hname, if_pos hanc, if_neg hmem, if_pos helev]
  exact ⟨rfl, rfl⟩

/-- Witness for C8: a successful event-driven elevation of untracked pid 9
bumps the counter from 0 to 1 and appends the pid to the tracking set. -/
theorem C8_witness :
    (wmiStep 1 wmiInit
      { event := { process_id := 9, process_name := "msedgewebview2.exe",
                   parent_process_id := 1 }, table := [], elevOk := true }).counter
      = wmiInit.counter + 1
  ∧ (wmiStep 1 wmiInit
      { event := { process_id := 9, process_name := "msedgewebview2.exe",
                   parent_process_id := 1 }, table := [], elevOk := true }).tracked
      = wmiInit.tracked ++ [9] :=
  C8_counter_event_mode_only.1 1 wmiInit
    { event := { process_id := 9, process_name := "msedgewebview2.exe",
                 parent_process_id := 1 }, table := [], elevOk := true }
    (by decide) (by decide) (by decide) rfl

/-- Claim C9, counterexample to the clause that after the event stream
terminates the telemetry no longer reports the watcher as actively
monitoring: with the optimizer running in WMI mode, stream termination only
clears `WMI_WATCHER_ACTIVE`, so the telemetry still reports
`is_active = true` (and mode "polling") although no watcher loop runs. -/
theorem C9_counterexample :
    (get_elevation_telemetry 3
      (wmi_stream_terminated
        { running := true, wmiWatcherActive := true,
          wmiLoops := 1, pollLoops := 0 }).wmiWatcherActive
      (wmi_stream_terminated
        { running := true, wmiWatcherActive := true,
          wmiLoops := 1, pollLoops := 0 }).running).is_active
      = true := by decide

/-- Claim C9 (amended): when the event stream terminates, the event loop
exits without restart and clears the WMI-active flag — telemetry thereafter
reports `wmi_available = false` and mode "polling" — but the
`WEBVIEW_OPTIMIZER_RUNNING` flag is left untouched, so `is_active` still
mirrors it and the telemetry keeps reporting the watcher as active even
though no monitoring loop runs. -/
theorem C9_stream_termination_flags :
    ∀ (g : OptimizerGlobals) (c : Nat),
      (wmi_stream_terminated g).wmiWatcherActive = false
    ∧ (wmi_stream_terminated g).running = g.running
    ∧ (get_elevation_telemetry c (wmi_stream_terminated g).wmiWatcherActive
        (wmi_stream_terminated g).running).wmi_available = false
    ∧ (get_elevation_telemetry c (wmi_stream_terminated g).wmiWatcherActive
        (wmi_stream_terminated g).running).mode = "polling"
    ∧ (get_elevation_telemetry c (wmi_stream_terminated g).wmiWatcherActive
        (wmi_stream_terminated g).running).is_active = g.running := by
  intro g c
  exact ⟨rfl, rfl, rfl, rfl, rfl⟩

/-- Claim C10: the telemetry mode field takes exactly two values — "wmi"
precisely when the WMI watcher-active flag is set, and "polling" in every
other state, whatever the other flags are. -/
theorem C10_mode_two_values :
    ∀ (c : Nat) (w r : Bool),
      ((get_elevation_telemetry c w r).mode = "wmi" ↔ w = true)
    ∧ ((get_elevation_telemetry c w r).mode = "wmi"
        ∨ (get_elevation_telemetry c w r).mode = "polling") := by
  intro c w r
  cases w <;> refine ⟨?_, ?_⟩
  · constructor
    · intro h
      have hs : ("polling" : String) = "wmi" := h
      exact absurd hs (by decide)
    · intro h
      cases h
  · exact Or.inr rfl
  · exact ⟨fun _ => rfl, fun _ => rfl⟩
  · exact Or.inl rfl

end PACDeluxe
